import Mathlib

/-!
Verification development for the layout/composition engine of the
pubplot/proplot repository.  The Lean definitions below are shallow
embeddings of the Python source: `Figure.panel_factory`,
`BaseAxes._spanx_setup` / `_spany_setup`, `BaseAxes._sharex_setup` /
`_sharey_setup`, `Figure._rowlabels` / `_collabels`, `Figure.draw` /
`Figure.smart_tight_layout`, the longitude-label wrap of
`_add_gridline_label`, and the `EmptyPanel` sentinel.  Machine floats are
modelled by rationals, Python exceptions by `Except`, and in-place object
mutation by explicit state passing.
-/

/-! ## Panel factory (`Figure.panel_factory`, src/pubplot/base.py)

`whichpanels` is the string of requested side tokens, embedded as a list
of characters.  The definitions mirror the source line by line:
`nrows`/`ncols`, the `sides_lr`/`sides_tb` lists (with `None` marking the
main row/column), `main_pos`, the `corners` table, `empty_pos`, and the
creation loop that adds the main axes first and then walks the grid in
row-major order, skipping the main position and the unallocated corner
positions. -/

/-- One axes produced by `panel_factory`: the main axes or a panel axes
tagged with its side string (the `translate` dict of the source). -/
inductive PFAx where
  | main
  | panel (side : String)
deriving DecidableEq, Repr

/-- Source: `nrows = 1 + sum(1 for i in whichpanels if i in 'bt')`. -/
def nrowsPF (wp : List Char) : Nat :=
  1 + wp.countP (fun c => c == 'b' || c == 't')

/-- Source: `ncols = 1 + sum(1 for i in whichpanels if i in 'lr')`. -/
def ncolsPF (wp : List Char) : Nat :=
  1 + wp.countP (fun c => c == 'l' || c == 'r')

/-- Source: `sides_lr = [l for l in ['l',None,'r'] if not l or l in whichpanels]`. -/
def sidesLR (wp : List Char) : List (Option Char) :=
  [some 'l', none, some 'r'].filter fun o =>
    match o with
    | none => true
    | some c => decide (c ∈ wp)

/-- Source: `sides_tb = [l for l in ['t',None,'b'] if not l or l in whichpanels]`. -/
def sidesTB (wp : List Char) : List (Option Char) :=
  [some 't', none, some 'b'].filter fun o =>
    match o with
    | none => true
    | some c => decide (c ∈ wp)

/-- Source: `main_pos = (int('t' in whichpanels), int('l' in whichpanels))`. -/
def mainPos (wp : List Char) : Nat × Nat :=
  ((if 't' ∈ wp then 1 else 0), (if 'l' ∈ wp then 1 else 0))

/-- Source: the `corners` dict mapping corner token pairs to grid
positions, e.g. `'tl':(0,0)`, `'br':(main_pos[0]+1, main_pos[1]+1)`. -/
def cornerTable (wp : List Char) : List (Char × Char × (Nat × Nat)) :=
  let mp := mainPos wp
  [('t', 'l', (0, 0)), ('t', 'r', (0, mp.2 + 1)),
   ('b', 'l', (mp.1 + 1, 0)), ('b', 'r', (mp.1 + 1, mp.2 + 1))]

/-- Source: `empty_pos = [position for corner,position in corners.items()
if corner[0] in whichpanels and corner[1] in whichpanels]`. -/
def emptyPos (wp : List Char) : List (Nat × Nat) :=
  (cornerTable wp).filterMap fun x =>
    if x.1 ∈ wp ∧ x.2.1 ∈ wp then some x.2.2 else none

/-- Source: the inverse `translate` dict `{'b':'bottom', 't':'top',
'l':'left', 'r':'right'}`. -/
def translateSide : Char → String
  | 'b' => "bottom"
  | 't' => "top"
  | 'l' => "left"
  | 'r' => "right"
  | _   => ""

/-- The sequence of axes created by `panel_factory`, each with its grid
position.  The source first draws the main axes at `main_pos`, then loops
`for r,side_tb in enumerate(sides_tb): for c,side_lr in enumerate(sides_lr)`,
skips `(r,c) in empty_pos or (r,c)==main_pos`, and adds a panel axes whose
side is `translate.get(side_tb or side_lr)` (Python `or`: the first
non-`None` of the two). -/
def createdAxes (wp : List Char) : List ((Nat × Nat) × PFAx) :=
  let stb := sidesTB wp
  let slr := sidesLR wp
  let mp := mainPos wp
  let ep := emptyPos wp
  (mp, PFAx.main) ::
    (stb.enum.flatMap fun rp =>
      slr.enum.filterMap fun cp =>
        if (rp.1, cp.1) ∈ ep ∨ (rp.1, cp.1) = mp then none
        else
          match rp.2.orElse (fun _ => cp.2) with
          | some c => some ((rp.1, cp.1), PFAx.panel (translateSide c))
          | none => none)

/-- Length of a duplicate-free list of side tokens, written as a sum of
membership indicators. -/
theorem length_of_subset_lrbt (wp : List Char) (hnd : wp.Nodup)
    (hsub : ∀ c ∈ wp, c = 'l' ∨ c = 'r' ∨ c = 'b' ∨ c = 't') :
    wp.length =
      (if 'l' ∈ wp then 1 else 0) + (if 'r' ∈ wp then 1 else 0) +
      (if 'b' ∈ wp then 1 else 0) + (if 't' ∈ wp then 1 else 0) := by
  induction wp with
  | nil => simp
  | cons c tl ih =>
    rcases List.nodup_cons.mp hnd with ⟨hc, htl⟩
    have hmem : ∀ d : Char, d ≠ c → (d ∈ c :: tl ↔ d ∈ tl) := by
      intro d hd
      simp [List.mem_cons, hd]
    have hrest := ih htl (fun d hd => hsub d (List.mem_cons_of_mem c hd))
    rcases hsub c (List.mem_cons_self c tl) with h | h | h | h <;> subst h <;>
      simp only [List.length_cons, hrest] <;>
      rw [if_pos (List.mem_cons_self _ tl)] <;>
      simp only [List.mem_cons] <;>
      simp [hc] <;> omega

set_option maxHeartbeats 2000000 in
/-- C1.  Panel Factory cell allocation: for every valid requested side
subset S of {left, right, bottom, top}, `panel_factory` creates exactly
1 + |S| axes (one main axes plus one panel per requested side), and a
corner grid position adjacent to both a requested vertical-side panel and
a requested horizontal-side panel (an element of `empty_pos`) is never
assigned an axes. -/
theorem panel_factory_cell_allocation (wp : List Char) (hnd : wp.Nodup)
    (hsub : ∀ c ∈ wp, c = 'l' ∨ c = 'r' ∨ c = 'b' ∨ c = 't') :
    (createdAxes wp).length = 1 + wp.length ∧
    ∀ p ∈ emptyPos wp, ∀ e ∈ createdAxes wp, e.1 ≠ p := by
  have hlen := length_of_subset_lrbt wp hnd hsub
  by_cases h1 : 'l' ∈ wp <;> by_cases h2 : 'r' ∈ wp <;>
    by_cases h3 : 'b' ∈ wp <;> by_cases h4 : 't' ∈ wp <;>
    simp [createdAxes, sidesTB, sidesLR, mainPos, emptyPos, cornerTable,
      List.enum, List.enumFrom, h1, h2, h3, h4, hlen, translateSide] <;> decide

/-- Witness for C1 at the full side set "lrbt": five axes, and none of the
four corner positions is assigned. -/
theorem panel_factory_cell_allocation_witness :
    (createdAxes ['l', 'r', 'b', 't']).length = 1 + (['l', 'r', 'b', 't'] : List Char).length ∧
    ∀ p ∈ emptyPos ['l', 'r', 'b', 't'], ∀ e ∈ createdAxes ['l', 'r', 'b', 't'], e.1 ≠ p :=
  panel_factory_cell_allocation ['l', 'r', 'b', 't'] (by decide) (by decide)

/-- C8 counterexample.  For the side set {left, top} the claim predicts
creation order main, left, top; the source's row-major loop actually
creates main, top, left (the top row of the nested grid is walked before
the main row). -/
theorem panel_factory_creation_order_cex :
    (createdAxes ['l', 't']).map Prod.snd =
      [PFAx.main, PFAx.panel "top", PFAx.panel "left"] ∧
    (createdAxes ['l', 't']).map Prod.snd ≠
      [PFAx.main, PFAx.panel "left", PFAx.panel "top"] := by
  constructor <;> decide

set_option maxHeartbeats 2000000 in
/-- C8 amended.  For every `panel_factory` call the main axes is created
first, and the requested panels are then created in top/left/right/bottom
(row-major) order, so later linking logic always observes the main axes
before any of its panels. -/
theorem panel_factory_creation_order (wp : List Char) :
    (createdAxes wp).map Prod.snd =
      PFAx.main ::
        ((if 't' ∈ wp then [PFAx.panel "top"] else []) ++
         (if 'l' ∈ wp then [PFAx.panel "left"] else []) ++
         (if 'r' ∈ wp then [PFAx.panel "right"] else []) ++
         (if 'b' ∈ wp then [PFAx.panel "bottom"] else [])) := by
  by_cases h1 : 'l' ∈ wp <;> by_cases h2 : 'r' ∈ wp <;>
    by_cases h3 : 'b' ∈ wp <;> by_cases h4 : 't' ∈ wp <;>
    simp [createdAxes, sidesTB, sidesLR, mainPos, emptyPos, cornerTable,
      List.enum, List.enumFrom, h1, h2, h3, h4, translateSide]

/-! ## Spanning axis labels (`BaseAxes._spanx_setup` / `_spany_setup`)

An axes is embedded by its identity, its current position rectangle in
figure-fraction coordinates (`get_position()`), and the visibility flags
of its x/y axis labels.  `_spanx_setup(group)` computes
`xmin = min(ax.get_position().xmin for ax in group)` and
`xmax = max(...)`, places the owner's x label at `((xmin+xmax)/2, 0)`,
and then walks the group recording the owner and setting each member's
label visibility: `False` for members other than the owner, `True` for
the owner itself.  `_spany_setup` is the y analogue, except that its loop
runs `if ax is not self: ax.yaxis.label.set_visible(True)` — it makes the
labels of the members other than the owner visible and leaves the
owner's flag untouched. -/

structure SpanAx where
  id : Nat
  xmin : ℚ
  xmax : ℚ
  ymin : ℚ
  ymax : ℚ
  xlabelVisible : Bool
  ylabelVisible : Bool
  spanxId : Option Nat
  spanyId : Option Nat
deriving DecidableEq, Repr

/-- Python `min` over a list of values; `min()` of an empty sequence
raises `ValueError`. -/
def pyMin : List ℚ → Except String ℚ
  | [] => .error "min() arg is an empty sequence"
  | x :: xs => .ok (xs.foldl min x)

/-- Python `max` over a list of values; `max()` of an empty sequence
raises `ValueError`. -/
def pyMax : List ℚ → Except String ℚ
  | [] => .error "max() arg is an empty sequence"
  | x :: xs => .ok (xs.foldl max x)

/-- Result of a span-group setup call: the owner's axis-label position
(in the blended figure-fraction transform the source installs) and the
updated group members. -/
structure SpanResult where
  ownerLabelPos : ℚ × ℚ
  updated : List SpanAx
deriving DecidableEq, Repr

/-- Embedding of `BaseAxes._spanx_setup(self, group)`; `selfId` is the
identity of `self` (the designated label owner). -/
def spanxSetup (selfId : Nat) (group : List SpanAx) : Except String SpanResult := do
  let xmin ← pyMin (group.map SpanAx.xmin)
  let xmax ← pyMax (group.map SpanAx.xmax)
  pure {
    ownerLabelPos := ((xmin + xmax) / 2, 0),
    updated := group.map fun ax =>
      { ax with spanxId := some selfId,
                xlabelVisible := ax.id == selfId } }

/-- Embedding of `BaseAxes._spany_setup(self, group)`.  The visibility
update mirrors the source exactly: members other than `self` get
`set_visible(True)`; `self` is left unchanged. -/
def spanySetup (selfId : Nat) (group : List SpanAx) : Except String SpanResult := do
  let ymin ← pyMin (group.map SpanAx.ymin)
  let ymax ← pyMax (group.map SpanAx.ymax)
  pure {
    ownerLabelPos := (0, (ymin + ymax) / 2),
    updated := group.map fun ax =>
      { ax with spanyId := some selfId,
                ylabelVisible := if ax.id == selfId then ax.ylabelVisible else true } }

theorem foldl_min_mem (xs : List ℚ) : ∀ a : ℚ, xs.foldl min a = a ∨ xs.foldl min a ∈ xs := by
  induction xs with
  | nil => intro a; left; rfl
  | cons x t ih =>
    intro a
    rw [List.foldl_cons]
    rcases ih (min a x) with h | h
    · rcases le_total a x with hax | hax
      · left; rw [h, min_eq_left hax]
      · right; rw [h, min_eq_right hax]; exact List.mem_cons_self x t
    · right; exact List.mem_cons_of_mem x h

theorem foldl_min_le_init (xs : List ℚ) : ∀ a : ℚ, xs.foldl min a ≤ a := by
  induction xs with
  | nil => intro a; exact le_refl a
  | cons x t ih =>
    intro a
    rw [List.foldl_cons]
    exact le_trans (ih (min a x)) (min_le_left a x)

theorem foldl_min_le_mem (xs : List ℚ) : ∀ a v : ℚ, v ∈ xs → xs.foldl min a ≤ v := by
  induction xs with
  | nil => intro a v hv; cases hv
  | cons x t ih =>
    intro a v hv
    rw [List.foldl_cons]
    rcases List.mem_cons.mp hv with h | h
    · subst h
      exact le_trans (foldl_min_le_init t (min a v)) (min_le_right a v)
    · exact ih (min a x) v h

theorem foldl_max_mem (xs : List ℚ) : ∀ a : ℚ, xs.foldl max a = a ∨ xs.foldl max a ∈ xs := by
  induction xs with
  | nil => intro a; left; rfl
  | cons x t ih =>
    intro a
    rw [List.foldl_cons]
    rcases ih (max a x) with h | h
    · rcases le_total a x with hax | hax
      · right; rw [h, max_eq_right hax]; exact List.mem_cons_self x t
      · left; rw [h, max_eq_left hax]
    · right; exact List.mem_cons_of_mem x h

theorem foldl_max_init_le (xs : List ℚ) : ∀ a : ℚ, a ≤ xs.foldl max a := by
  induction xs with
  | nil => intro a; exact le_refl a
  | cons x t ih =>
    intro a
    rw [List.foldl_cons]
    exact le_trans (le_max_left a x) (ih (max a x))

theorem foldl_max_mem_le (xs : List ℚ) : ∀ a v : ℚ, v ∈ xs → v ≤ xs.foldl max a := by
  induction xs with
  | nil => intro a v hv; cases hv
  | cons x t ih =>
    intro a v hv
    rw [List.foldl_cons]
    rcases List.mem_cons.mp hv with h | h
    · subst h
      exact le_trans (le_max_right a v) (foldl_max_init_le t (max a v))
    · exact ih (max a x) v h

/-- A successful `pyMin` returns the least element of the list. -/
theorem pyMin_isLeast (xs : List ℚ) (m : ℚ) (h : pyMin xs = .ok m) :
    m ∈ xs ∧ ∀ v ∈ xs, m ≤ v := by
  match xs, h with
  | x :: t, h =>
    have hm : m = t.foldl min x := by
      simpa [pyMin] using h.symm
    subst hm
    refine ⟨?_, ?_⟩
    · rcases foldl_min_mem t x with h | h
      · rw [h]; exact List.mem_cons_self x t
      · exact List.mem_cons_of_mem x h
    · intro v hv
      rcases List.mem_cons.mp hv with h | h
      · subst h; exact foldl_min_le_init t v
      · exact foldl_min_le_mem t x v h

/-- A successful `pyMax` returns the greatest element of the list. -/
theorem pyMax_isGreatest (xs : List ℚ) (m : ℚ) (h : pyMax xs = .ok m) :
    m ∈ xs ∧ ∀ v ∈ xs, v ≤ m := by
  match xs, h with
  | x :: t, h =>
    have hm : m = t.foldl max x := by
      simpa [pyMax] using h.symm
    subst hm
    refine ⟨?_, ?_⟩
    · rcases foldl_max_mem t x with h | h
      · rw [h]; exact List.mem_cons_self x t
      · exact List.mem_cons_of_mem x h
    · intro v hv
      rcases List.mem_cons.mp hv with h | h
      · subst h; exact foldl_max_init_le t v
      · exact foldl_max_mem_le t x v h

/-- C2.  Span label midpoint: for every non-empty span group on the x
(resp. y) axis, setting up the group positions the designated owner's x
(resp. y) axis label at the arithmetic midpoint of the group's combined
extent in figure-fraction coordinates: ((min over members of the member's
position minimum) + (max over members of the member's position maximum)) / 2. -/
theorem span_label_midpoint (sid : Nat) (group : List SpanAx) (h : group ≠ []) :
    ∃ rx ry,
      spanxSetup sid group = .ok rx ∧ spanySetup sid group = .ok ry ∧
      (∃ lo hi, lo ∈ group.map SpanAx.xmin ∧ (∀ v ∈ group.map SpanAx.xmin, lo ≤ v) ∧
        hi ∈ group.map SpanAx.xmax ∧ (∀ v ∈ group.map SpanAx.xmax, v ≤ hi) ∧
        rx.ownerLabelPos = ((lo + hi) / 2, 0)) ∧
      (∃ lo hi, lo ∈ group.map SpanAx.ymin ∧ (∀ v ∈ group.map SpanAx.ymin, lo ≤ v) ∧
        hi ∈ group.map SpanAx.ymax ∧ (∀ v ∈ group.map SpanAx.ymax, v ≤ hi) ∧
        ry.ownerLabelPos = (0, (lo + hi) / 2)) := by
  obtain ⟨g, gs, rfl⟩ : ∃ g gs, group = g :: gs := by
    cases group with
    | nil => exact absurd rfl h
    | cons g gs => exact ⟨g, gs, rfl⟩
  refine ⟨_, _, rfl, rfl, ?_, ?_⟩
  · obtain ⟨hmem, hle⟩ := pyMin_isLeast ((g :: gs).map SpanAx.xmin) _ rfl
    obtain ⟨hmem2, hle2⟩ := pyMax_isGreatest ((g :: gs).map SpanAx.xmax) _ rfl
    exact ⟨_, _, hmem, hle, hmem2, hle2, rfl⟩
  · obtain ⟨hmem, hle⟩ := pyMin_isLeast ((g :: gs).map SpanAx.ymin) _ rfl
    obtain ⟨hmem2, hle2⟩ := pyMax_isGreatest ((g :: gs).map SpanAx.ymax) _ rfl
    exact ⟨_, _, hmem, hle, hmem2, hle2, rfl⟩

/-- Two concrete axes and their span group, used to witness C2. -/
def spanDemoA : SpanAx :=
  { id := 0, xmin := 0, xmax := 1, ymin := 0, ymax := 1,
    xlabelVisible := true, ylabelVisible := true, spanxId := none, spanyId := none }

def spanDemoB : SpanAx :=
  { id := 1, xmin := 1, xmax := 3, ymin := 0, ymax := 2,
    xlabelVisible := true, ylabelVisible := true, spanxId := none, spanyId := none }

def spanDemoGroup : List SpanAx := [spanDemoA, spanDemoB]

/-- Witness for C2 on a concrete two-member group. -/
theorem span_label_midpoint_witness :
    ∃ rx ry,
      spanxSetup 0 spanDemoGroup = .ok rx ∧ spanySetup 0 spanDemoGroup = .ok ry ∧
      (∃ lo hi, lo ∈ spanDemoGroup.map SpanAx.xmin ∧
        (∀ v ∈ spanDemoGroup.map SpanAx.xmin, lo ≤ v) ∧
        hi ∈ spanDemoGroup.map SpanAx.xmax ∧
        (∀ v ∈ spanDemoGroup.map SpanAx.xmax, v ≤ hi) ∧
        rx.ownerLabelPos = ((lo + hi) / 2, 0)) ∧
      (∃ lo hi, lo ∈ spanDemoGroup.map SpanAx.ymin ∧
        (∀ v ∈ spanDemoGroup.map SpanAx.ymin, lo ≤ v) ∧
        hi ∈ spanDemoGroup.map SpanAx.ymax ∧
        (∀ v ∈ spanDemoGroup.map SpanAx.ymax, v ≤ hi) ∧
        ry.ownerLabelPos = (0, (lo + hi) / 2)) :=
  span_label_midpoint 0 spanDemoGroup (by decide)

/-- C4 (code divergence at a concrete input).  In a two-member y span
group whose non-owner's y label starts invisible, `_spany_setup` ends
with both members' y labels visible: the loop body reads
`ax.yaxis.label.set_visible(True)` for members other than the owner,
although the adjacent comment says "make this label invisible" and the x
analogue `_spanx_setup` sets `False` there.  The claim (only the owner's
label stays visible) is violated on the y direction. -/
theorem spany_nonowner_label_visible_bug :
    (spanySetup 0
        [{ id := 0, xmin := 0, xmax := 1, ymin := 0, ymax := 1,
           xlabelVisible := true, ylabelVisible := true, spanxId := none, spanyId := none },
         { id := 1, xmin := 0, xmax := 1, ymin := 1, ymax := 2,
           xlabelVisible := true, ylabelVisible := false, spanxId := none, spanyId := none }]).toOption.map
      (fun r => r.updated.map SpanAx.ylabelVisible) = some [true, true] := by
  decide

/-! ## Axes sharing (`BaseAxes._sharex_setup` / `_sharey_setup`)

An axes is embedded by its identity and its four panel slots (a slot is
`none` when the attribute holds a falsey `EmptyPanel`/`None`, `some p`
when a panel axes is present; in the source a panel axes is itself a
`BaseAxes`, so the type is recursive).  The builtin
`self._shared_x_axes.join(self, sharex)` calls are recorded as a list of
joined (self, sharex) id pairs.  Neither method contains a reachable
`raise`: the self-share branch is a plain `return` (the
`ValueError('Cannot share an axes with itself.')` is commented out), so
the embedding wraps the join list in `Except.ok`. -/

inductive ShAxes where
  | mk (id : Nat) (leftpanel rightpanel bottompanel toppanel : Option ShAxes)

def ShAxes.id : ShAxes → Nat
  | .mk i _ _ _ _ => i

def ShAxes.leftpanel : ShAxes → Option ShAxes
  | .mk _ l _ _ _ => l

def ShAxes.rightpanel : ShAxes → Option ShAxes
  | .mk _ _ r _ _ => r

def ShAxes.bottompanel : ShAxes → Option ShAxes
  | .mk _ _ _ b _ => b

def ShAxes.toppanel : ShAxes → Option ShAxes
  | .mk _ _ _ _ t => t

/-- Join pairs produced by `BaseAxes._sharex_setup(self, sharex)`, in
source order: `if sharex is None: return`; `if self is sharex: return`;
left panels shared pairwise, right panels shared pairwise, bottom then
top panel shared with `sharex` itself (each guarded by
`sharex is not self.<panel>`), and finally
`self._shared_x_axes.join(self, sharex)`. -/
def sharexJoins : ShAxes → Option ShAxes → List (Nat × Nat)
  | _, none => []
  | .mk i lp rp bp tp, some b =>
    if i = b.id then []
    else
      (match lp, b with
        | some ap, .mk _ (some bp2) _ _ _ => sharexJoins ap (some bp2)
        | _, _ => [])
      ++ (match rp, b with
        | some ap, .mk _ _ (some bp2) _ _ => sharexJoins ap (some bp2)
        | _, _ => [])
      ++ (match bp with
        | some p => if b.id = p.id then [] else sharexJoins p (some b)
        | none => [])
      ++ (match tp with
        | some p => if b.id = p.id then [] else sharexJoins p (some b)
        | none => [])
      ++ [(i, b.id)]

/-- Join pairs produced by `BaseAxes._sharey_setup(self, sharey)`:
bottom panels shared pairwise, top panels shared pairwise, left then
right panel shared with `sharey` itself (unguarded in the source), and
finally `self._shared_y_axes.join(self, sharey)`. -/
def shareyJoins : ShAxes → Option ShAxes → List (Nat × Nat)
  | _, none => []
  | .mk i lp rp bp tp, some b =>
    if i = b.id then []
    else
      (match bp, b with
        | some ap, .mk _ _ _ (some bp2) _ => shareyJoins ap (some bp2)
        | _, _ => [])
      ++ (match tp, b with
        | some ap, .mk _ _ _ _ (some bp2) => shareyJoins ap (some bp2)
        | _, _ => [])
      ++ (match lp with
        | some p => shareyJoins p (some b)
        | none => [])
      ++ (match rp with
        | some p => shareyJoins p (some b)
        | none => [])
      ++ [(i, b.id)]

/-- Embedding of `_sharex_setup`: no reachable raise, so the result is
always `Except.ok` of the join list. -/
def sharexSetup (a : ShAxes) (b : Option ShAxes) : Except String (List (Nat × Nat)) :=
  .ok (sharexJoins a b)

/-- Embedding of `_sharey_setup`. -/
def shareySetup (a : ShAxes) (b : Option ShAxes) : Except String (List (Nat × Nat)) :=
  .ok (shareyJoins a b)

/-- Any non-self share call records the join of the two axes themselves. -/
theorem sharexJoins_self_mem (a b : ShAxes) (h : a.id ≠ b.id) :
    (a.id, b.id) ∈ sharexJoins a (some b) := by
  cases a with
  | mk i lp rp bp tp =>
    cases b with
    | mk j blp brp bbp btp =>
      have hi : ¬ i = j := h
      rw [sharexJoins.eq_def]
      simp [ShAxes.id, hi]

theorem shareyJoins_self_mem (a b : ShAxes) (h : a.id ≠ b.id) :
    (a.id, b.id) ∈ shareyJoins a (some b) := by
  cases a with
  | mk i lp rp bp tp =>
    cases b with
    | mk j blp brp bbp btp =>
      have hi : ¬ i = j := h
      rw [shareyJoins.eq_def]
      simp [ShAxes.id, hi]

/-- C3.  Share propagation to panels: linking axes a and b on one axis
direction also propagates sharing to the panels on the orthogonal sides —
sharing the x axis makes a's bottom and top panels x-share with b, and
sharing the y axis makes a's left and right panels y-share with b — in
addition to the join of a and b themselves, so a multi-panel composite
behaves as one logical shared region. -/
theorem share_propagates_to_panels (a b : ShAxes) (hab : a.id ≠ b.id) :
    ((a.id, b.id) ∈ sharexJoins a (some b)) ∧
    ((a.id, b.id) ∈ shareyJoins a (some b)) ∧
    (∀ p, a.bottompanel = some p → p.id ≠ b.id → (p.id, b.id) ∈ sharexJoins a (some b)) ∧
    (∀ p, a.toppanel = some p → p.id ≠ b.id → (p.id, b.id) ∈ sharexJoins a (some b)) ∧
    (∀ p, a.leftpanel = some p → p.id ≠ b.id → (p.id, b.id) ∈ shareyJoins a (some b)) ∧
    (∀ p, a.rightpanel = some p → p.id ≠ b.id → (p.id, b.id) ∈ shareyJoins a (some b)) := by
  refine ⟨sharexJoins_self_mem a b hab, shareyJoins_self_mem a b hab, ?_, ?_, ?_, ?_⟩
  · intro p hp hpb
    cases a with
    | mk i lp rp bp tp =>
      cases b with
      | mk j blp brp bbp btp =>
        have hi : ¬ i = j := hab
        have hbp : bp = some p := hp
        subst hbp
        have hmem := sharexJoins_self_mem p (ShAxes.mk j blp brp bbp btp) hpb
        cases p with
        | mk k plp prp pbp ptp =>
          have hj : ¬ j = k := fun hh => hpb hh.symm
          rw [sharexJoins.eq_def]
          simp only [ShAxes.id, hi, hj, if_false, List.mem_append] at hmem ⊢
          tauto
  · intro p hp hpb
    cases a with
    | mk i lp rp bp tp =>
      cases b with
      | mk j blp brp bbp btp =>
        have hi : ¬ i = j := hab
        have htp : tp = some p := hp
        subst htp
        have hmem := sharexJoins_self_mem p (ShAxes.mk j blp brp bbp btp) hpb
        cases p with
        | mk k plp prp pbp ptp =>
          have hj : ¬ j = k := fun hh => hpb hh.symm
          rw [sharexJoins.eq_def]
          simp only [ShAxes.id, hi, hj, if_false, List.mem_append] at hmem ⊢
          tauto
  · intro p hp hpb
    cases a with
    | mk i lp rp bp tp =>
      cases b with
      | mk j blp brp bbp btp =>
        have hi : ¬ i = j := hab
        have hlp : lp = some p := hp
        subst hlp
        have hmem := shareyJoins_self_mem p (ShAxes.mk j blp brp bbp btp) hpb
        cases p with
        | mk k plp prp pbp ptp =>
          rw [shareyJoins.eq_def]
          simp only [ShAxes.id, hi, if_false, List.mem_append] at hmem ⊢
          tauto
  · intro p hp hpb
    cases a with
    | mk i lp rp bp tp =>
      cases b with
      | mk j blp brp bbp btp =>
        have hi : ¬ i = j := hab
        have hrp : rp = some p := hp
        subst hrp
        have hmem := shareyJoins_self_mem p (ShAxes.mk j blp brp bbp btp) hpb
        cases p with
        | mk k plp prp pbp ptp =>
          rw [shareyJoins.eq_def]
          simp only [ShAxes.id, hi, if_false, List.mem_append] at hmem ⊢
          tauto

/-- Concrete axes with four panels each, used to witness C3. -/
def shareDemoA : ShAxes :=
  .mk 0 (some (.mk 10 none none none none)) (some (.mk 11 none none none none))
        (some (.mk 12 none none none none)) (some (.mk 13 none none none none))

def shareDemoB : ShAxes :=
  .mk 1 (some (.mk 20 none none none none)) (some (.mk 21 none none none none))
        (some (.mk 22 none none none none)) (some (.mk 23 none none none none))

/-- Witness for C3: x-sharing axes 0 with axes 1 joins the bottom panel
(id 12) and top panel (id 13) with axes 1 on x; y-sharing joins the left
panel (id 10) and right panel (id 11) with axes 1 on y. -/
theorem share_propagates_to_panels_witness :
    ((0, 1) ∈ sharexJoins shareDemoA (some shareDemoB)) ∧
    ((0, 1) ∈ shareyJoins shareDemoA (some shareDemoB)) ∧
    ((12, 1) ∈ sharexJoins shareDemoA (some shareDemoB)) ∧
    ((13, 1) ∈ sharexJoins shareDemoA (some shareDemoB)) ∧
    ((10, 1) ∈ shareyJoins shareDemoA (some shareDemoB)) ∧
    ((11, 1) ∈ shareyJoins shareDemoA (some shareDemoB)) := by
  obtain ⟨h1, h2, h3, h4, h5, h6⟩ :=
    share_propagates_to_panels shareDemoA shareDemoB (by decide)
  exact ⟨h1, h2,
    h3 (.mk 12 none none none none) rfl (by decide),
    h4 (.mk 13 none none none none) rfl (by decide),
    h5 (.mk 10 none none none none) rfl (by decide),
    h6 (.mk 11 none none none none) rfl (by decide)⟩

/-- C5 counterexample.  Sharing a concrete axes with itself does not fail
with any error: both `_sharex_setup` and `_sharey_setup` hit the
`if self is sharex: return` branch (the `ValueError` raise in the source
is commented out) and return normally, recording no join. -/
theorem self_share_no_error_cex :
    sharexSetup (ShAxes.mk 0 none none none none) (some (ShAxes.mk 0 none none none none)) =
      .ok [] ∧
    shareySetup (ShAxes.mk 0 none none none none) (some (ShAxes.mk 0 none none none none)) =
      .ok [] := by
  constructor <;> rfl

/-- C5 amended.  Attempting to link any axes to itself on either axis
direction is a silent no-op: the call returns normally (no LinkError is
raised) and records no share join. -/
theorem self_share_silent_noop (a : ShAxes) :
    sharexSetup a (some a) = .ok [] ∧ shareySetup a (some a) = .ok [] := by
  cases a with
  | mk i lp rp bp tp =>
    have hx : sharexJoins (ShAxes.mk i lp rp bp tp) (some (ShAxes.mk i lp rp bp tp)) = [] := by
      rw [sharexJoins.eq_def]
      simp [ShAxes.id]
    have hy : shareyJoins (ShAxes.mk i lp rp bp tp) (some (ShAxes.mk i lp rp bp tp)) = [] := by
      rw [shareyJoins.eq_def]
      simp [ShAxes.id]
    exact ⟨congrArg Except.ok hx, congrArg Except.ok hy⟩

/-! ## Row and column labels (`Figure._rowlabels` / `Figure._collabels`)

An axes is embedded by the two `isinstance` facts the selection loop
tests, its grid position (`ax.rows[0]`, `ax.cols[0]`), and the current
text of its `rowlabel`/`collabel` artists.  The source selects axes with
`isinstance(ax, BaseAxes) and not isinstance(ax, PanelAxes)` in column 0
(rows) or row 0 (columns), broadcasts a plain string to the matched
count, raises `ValueError` on a count mismatch, sorts the matched axes by
the orthogonal start coordinate, and then updates each axes only when
`label and not ax.rowlabel.get_text()` (non-empty label, still-empty
artist). -/

structure LAxes where
  isBase : Bool
  isPanel : Bool
  rowStart : Nat
  colStart : Nat
  rowlabelText : String
  collabelText : String
deriving DecidableEq, Repr

/-- Labels argument: a single broadcast string or a list. -/
inductive Labels where
  | str (s : String)
  | list (l : List String)

/-- Axes matched by `_rowlabels`: top-level non-panel axes with
`ax.cols[0]==0`. -/
def rowMatched (axes : List LAxes) : List LAxes :=
  axes.filter fun ax => ax.isBase && !ax.isPanel && ax.colStart == 0

/-- Axes matched by `_collabels`: top-level non-panel axes with
`ax.rows[0]==0`. -/
def colMatched (axes : List LAxes) : List LAxes :=
  axes.filter fun ax => ax.isBase && !ax.isPanel && ax.rowStart == 0

/-- Per-axes update of `_rowlabels`: `if label and not
ax.rowlabel.get_text(): ax.rowlabel.update({'text':label, ...})`. -/
def assignRowLabel (ax : LAxes) (label : String) : LAxes :=
  if label != "" && ax.rowlabelText == "" then { ax with rowlabelText := label } else ax

/-- Per-axes update of `_collabels`. -/
def assignColLabel (ax : LAxes) (label : String) : LAxes :=
  if label != "" && ax.collabelText == "" then { ax with collabelText := label } else ax

/-- Embedding of `Figure._rowlabels(labels)`: select, broadcast a string,
check the count, sort by `ax.rows[0]`, assign. -/
def rowlabelsFn (axes : List LAxes) (labels : Labels) : Except String (List LAxes) :=
  let axs := rowMatched axes
  let labs := match labels with
    | .str s => List.replicate axs.length s
    | .list l => l
  if labs.length ≠ axs.length then
    .error ("Got " ++ toString labs.length ++ " labels, but there are " ++
      toString axs.length ++ " rows.")
  else
    let sorted := axs.mergeSort fun a b => decide (a.rowStart ≤ b.rowStart)
    .ok ((sorted.zip labs).map fun p => assignRowLabel p.1 p.2)

/-- Embedding of `Figure._collabels(labels)`: select, broadcast a string,
check the count, sort by `ax.cols[0]`, assign. -/
def collabelsFn (axes : List LAxes) (labels : Labels) : Except String (List LAxes) :=
  let axs := colMatched axes
  let labs := match labels with
    | .str s => List.replicate axs.length s
    | .list l => l
  if labs.length ≠ axs.length then
    .error ("Got " ++ toString labs.length ++ " labels, but there are " ++
      toString axs.length ++ " columns.")
  else
    let sorted := axs.mergeSort fun a b => decide (a.colStart ≤ b.colStart)
    .ok ((sorted.zip labs).map fun p => assignColLabel p.1 p.2)

/-- C6 counterexample.  A matched axes whose row label text is already
set is skipped by the update (`not ax.rowlabel.get_text()` fails), so a
successful call does not give every matched axes its label: with one
matched axes already labelled "A", assigning ["B"] succeeds yet the axes
still carries "A". -/
theorem row_label_already_set_cex :
    rowlabelsFn
      [{ isBase := true, isPanel := false, rowStart := 0, colStart := 0,
         rowlabelText := "A", collabelText := "" }] (.list ["B"]) =
      .ok [{ isBase := true, isPanel := false, rowStart := 0, colStart := 0,
             rowlabelText := "A", collabelText := "" }] ∧
    "A" ≠ "B" := by
  constructor
  · simp [rowlabelsFn, rowMatched, assignRowLabel, List.mergeSort_singleton]
  · decide

/-- C6 amended.  Row (resp. column) labelling matches exactly the
top-level non-panel axes in the first column (resp. first row) and
processes them sorted by the secondary coordinate; a list whose length
differs from the matched count fails with the count-mismatch error while
a single broadcast string never does; on success each matched axes whose
label is still empty receives its non-empty label and every other axes is
left unchanged (the update rule `assignRowLabel`/`assignColLabel`). -/
theorem row_col_label_check (axes : List LAxes) (l : List String) (s : String) :
    (l.length ≠ (rowMatched axes).length →
      ∃ msg, rowlabelsFn axes (.list l) = .error msg) ∧
    (l.length ≠ (colMatched axes).length →
      ∃ msg, collabelsFn axes (.list l) = .error msg) ∧
    (∃ outR, rowlabelsFn axes (.str s) = .ok outR) ∧
    (∃ outC, collabelsFn axes (.str s) = .ok outC) ∧
    (l.length = (rowMatched axes).length →
      rowlabelsFn axes (.list l) =
        .ok ((((rowMatched axes).mergeSort fun a b => decide (a.rowStart ≤ b.rowStart)).zip l).map
          fun p => assignRowLabel p.1 p.2)) ∧
    (l.length = (colMatched axes).length →
      collabelsFn axes (.list l) =
        .ok ((((colMatched axes).mergeSort fun a b => decide (a.colStart ≤ b.colStart)).zip l).map
          fun p => assignColLabel p.1 p.2)) ∧
    List.Pairwise (fun x y => x.rowStart ≤ y.rowStart)
      ((rowMatched axes).mergeSort fun a b => decide (a.rowStart ≤ b.rowStart)) ∧
    List.Pairwise (fun x y => x.colStart ≤ y.colStart)
      ((colMatched axes).mergeSort fun a b => decide (a.colStart ≤ b.colStart)) ∧
    (((rowMatched axes).mergeSort fun a b => decide (a.rowStart ≤ b.rowStart)).Perm
      (rowMatched axes)) ∧
    (((colMatched axes).mergeSort fun a b => decide (a.colStart ≤ b.colStart)).Perm
      (colMatched axes)) ∧
    (∀ ax lab, (assignRowLabel ax lab).rowlabelText =
      if lab ≠ "" ∧ ax.rowlabelText = "" then lab else ax.rowlabelText) ∧
    (∀ ax lab, (assignColLabel ax lab).collabelText =
      if lab ≠ "" ∧ ax.collabelText = "" then lab else ax.collabelText) := by
  refine ⟨?_, ?_, ?_, ?_, ?_, ?_, ?_, ?_, ?_, ?_, ?_, ?_⟩
  · intro hne
    refine ⟨"Got " ++ toString l.length ++ " labels, but there are " ++
      toString (rowMatched axes).length ++ " rows.", ?_⟩
    simp [rowlabelsFn, hne]
  · intro hne
    refine ⟨"Got " ++ toString l.length ++ " labels, but there are " ++
      toString (colMatched axes).length ++ " columns.", ?_⟩
    simp [collabelsFn, hne]
  · refine ⟨(((rowMatched axes).mergeSort fun a b => decide (a.rowStart ≤ b.rowStart)).zip
      (List.replicate (rowMatched axes).length s)).map (fun p => assignRowLabel p.1 p.2), ?_⟩
    simp [rowlabelsFn]
  · refine ⟨(((colMatched axes).mergeSort fun a b => decide (a.colStart ≤ b.colStart)).zip
      (List.replicate (colMatched axes).length s)).map (fun p => assignColLabel p.1 p.2), ?_⟩
    simp [collabelsFn]
  · intro heq
    simp [rowlabelsFn, heq]
  · intro heq
    simp [collabelsFn, heq]
  · have hs := @List.sorted_mergeSort LAxes
      (fun a b => decide (a.rowStart ≤ b.rowStart))
      (fun a b c hab hbc => by
        simp only [decide_eq_true_eq] at hab hbc ⊢
        omega)
      (fun a b => by
        simp only [Bool.or_eq_true, decide_eq_true_eq]
        omega)
      (rowMatched axes)
    exact hs.imp (fun h => by simpa using h)
  · have hs := @List.sorted_mergeSort LAxes
      (fun a b => decide (a.colStart ≤ b.colStart))
      (fun a b c hab hbc => by
        simp only [decide_eq_true_eq] at hab hbc ⊢
        omega)
      (fun a b => by
        simp only [Bool.or_eq_true, decide_eq_true_eq]
        omega)
      (colMatched axes)
    exact hs.imp (fun h => by simpa using h)
  · exact List.mergeSort_perm _ _
  · exact List.mergeSort_perm _ _
  · intro ax lab
    by_cases h1 : lab = "" <;> by_cases h2 : ax.rowlabelText = "" <;>
      simp [assignRowLabel, h1, h2]
  · intro ax lab
    by_cases h1 : lab = "" <;> by_cases h2 : ax.collabelText = "" <;>
      simp [assignColLabel, h1, h2]

/-! ## Draw and tight layout (`Figure.draw` / `Figure.smart_tight_layout`)

The fields relevant to the tight-layout policy are `_smart_tight`
(constructor option `tight`) and `_smart_tight_init` ("is figure in its
initial state?", set `True` in `__init__`).  `draw` runs
`smart_tight_layout()` exactly when `self._smart_tight_init and
self._smart_tight`, and `smart_tight_layout` performs one
measure-and-adjust pass and sets `_smart_tight_init = False`.  The model
returns the number of measure-adjust passes a `draw` call performs
together with the updated state. -/

structure FigState where
  smartTight : Bool
  smartTightInit : Bool
deriving DecidableEq, Repr

/-- State produced by `Figure.__init__(..., tight=tight, ...)`. -/
def figureInitState (tight : Bool) : FigState :=
  { smartTight := tight, smartTightInit := true }

/-- Effect of `smart_tight_layout` on the policy state: one pass runs and
`_smart_tight_init` becomes `False`. -/
def smartTightLayout (s : FigState) : FigState :=
  { s with smartTightInit := false }

/-- Embedding of one `Figure.draw` call: the number of tight-layout
passes performed and the resulting state. -/
def drawPasses (s : FigState) : Nat × FigState :=
  if s.smartTightInit && s.smartTight then (1, smartTightLayout s) else (0, s)

/-- C7 counterexample.  With tight layout enabled, the first draw
performs one pass but the second draw performs none (the first pass
cleared `_smart_tight_init`), contradicting "every draw call performs
exactly one measure-and-adjust pass" and leaving no pass on the next draw
to correct residual error. -/
theorem tight_layout_second_draw_cex :
    (drawPasses (figureInitState true)).1 = 1 ∧
    (drawPasses (drawPasses (figureInitState true)).2).1 ≠ 1 := by
  constructor <;> decide

/-- C7 amended.  A draw never performs more than one measure-and-adjust
pass (never iterated within a draw); with tight layout enabled it
performs exactly one pass only while the figure is still in its initial
state, after which `_smart_tight_init` is cleared; once cleared, every
draw performs zero passes and leaves the state unchanged. -/
theorem tight_layout_single_pass (s : FigState) :
    (drawPasses s).1 ≤ 1 ∧
    (s.smartTight = true ∧ s.smartTightInit = true →
      (drawPasses s).1 = 1 ∧ ((drawPasses s).2).smartTightInit = false) ∧
    (s.smartTightInit = false → (drawPasses s).1 = 0 ∧ (drawPasses s).2 = s) := by
  rcases s with ⟨t, i⟩
  cases t <;> cases i <;> simp [drawPasses, smartTightLayout]

/-! ## Longitude label wrap (`_add_gridline_label`, src/proplot/axes/geo.py)

The gridliner label patch runs `value = (value + 180) % 360 - 180` when
`axis == 'x'` before formatting.  Values are embedded as rationals and
the Python float `%` (result in `[0, m)` for positive `m`) as
`a - m * floor(a / m)`. -/

/-- Python modulo for a positive rational modulus. -/
def pymod (a m : ℚ) : ℚ := a - m * ⌊a / m⌋

/-- Normalization `_add_gridline_label` applies to a gridline value
before formatting: wrap when the label belongs to the x axis, identity
otherwise. -/
def gridlineLabelValue (value : ℚ) (axis : Char) : ℚ :=
  if axis = 'x' then pymod (value + 180) 360 - 180 else value

/-- C9 counterexample.  The wrap sends longitude 180 to −180, which lies
outside the claimed interval (−180, 180]. -/
theorem lon_wrap_cex :
    gridlineLabelValue 180 'x' = -180 ∧ ¬ (-180 < gridlineLabelValue 180 'x') := by
  have h1 : ((180:ℚ) + 180) / 360 = 1 := by norm_num
  have h2 : gridlineLabelValue 180 'x' = -180 := by
    simp [gridlineLabelValue, pymod, h1]
    norm_num
  rw [h2]
  norm_num

/-- C9 amended.  The normalization applied before a longitude label is
formatted maps every input longitude into the half-open interval
[−180, 180). -/
theorem lon_wrap_range (v : ℚ) :
    -180 ≤ gridlineLabelValue v 'x' ∧ gridlineLabelValue v 'x' < 180 := by
  have hfl : ((⌊(v + 180) / 360⌋ : ℚ)) ≤ (v + 180) / 360 := Int.floor_le _
  have hfg : (v + 180) / 360 - 1 < ((⌊(v + 180) / 360⌋ : ℚ)) := Int.sub_one_lt_floor _
  constructor <;> simp only [gridlineLabelValue, pymod, if_pos] <;> nlinarith [hfl, hfg]

/-! ## The `EmptyPanel` sentinel (src/pubplot/base.py)

`EmptyPanel` defines `__bool__` returning `False` and `__getattr__`
raising `NotImplementedError('Panel does not exist.')`.  As the class's
own docstring notes, Python invokes `__getattr__` only when ordinary
lookup fails, i.e. for names not provided by the class or inherited from
`object`.  Attribute access is embedded accordingly: the class attribute
table is the two defined methods plus the standard `object` attributes. -/

def objectAttrs : List String :=
  ["__class__", "__delattr__", "__dict__", "__dir__", "__doc__", "__eq__",
   "__format__", "__ge__", "__getattribute__", "__gt__", "__hash__",
   "__init__", "__init_subclass__", "__le__", "__lt__", "__module__",
   "__ne__", "__new__", "__reduce__", "__reduce_ex__", "__repr__",
   "__setattr__", "__sizeof__", "__str__", "__subclasshook__", "__weakref__"]

def emptyPanelClassAttrs : List String :=
  ["__bool__", "__getattr__"] ++ objectAttrs

/-- Attribute access on an `EmptyPanel` instance: names found by ordinary
lookup are returned; for all other names `__getattr__` runs and raises
`NotImplementedError('Panel does not exist.')`. -/
def emptyPanelGetattr (name : String) : Except String Unit :=
  if name ∈ emptyPanelClassAttrs then .ok () else .error "Panel does not exist."

/-- Source: `def __bool__(self): return False`. -/
def emptyPanelBool : Bool := false

/-- One panel attribute slot: an `EmptyPanel` sentinel or a real panel
axes. -/
inductive PanelSlot where
  | empty
  | axes (id : Nat)
deriving DecidableEq, Repr

structure PanelSlots where
  leftpanel : PanelSlot
  rightpanel : PanelSlot
  bottompanel : PanelSlot
  toppanel : PanelSlot
deriving DecidableEq, Repr

/-- Panel attributes set by `Figure.__init__`: all four are
`EmptyPanel()`. -/
def figureInitPanels : PanelSlots :=
  { leftpanel := .empty, rightpanel := .empty,
    bottompanel := .empty, toppanel := .empty }

/-- Panel attributes set by `BaseAxes.__init__`: all four are
`EmptyPanel()`. -/
def baseAxesInitPanels : PanelSlots :=
  { leftpanel := .empty, rightpanel := .empty,
    bottompanel := .empty, toppanel := .empty }

/-- C10 counterexample.  Accessing the attribute name `__bool__` on an
`EmptyPanel` does not raise: it is found by ordinary lookup (the class
defines it), so "accessing any attribute ... raises NotImplementedError
... for every attribute name" fails at this name. -/
theorem empty_panel_dunder_cex :
    emptyPanelGetattr "__bool__" = .ok () ∧ emptyPanelBool = false := by
  constructor
  · rfl
  · rfl

/-- C10 amended.  Every newly constructed axes and figure initializes all
four panel attributes to an `EmptyPanel`; `EmptyPanel` is falsey; and
accessing any attribute name not found by ordinary lookup (not provided
by the class or by `object`) raises `NotImplementedError` with message
"Panel does not exist.". -/
theorem empty_panel_sentinel (name : String) (h : name ∉ emptyPanelClassAttrs) :
    emptyPanelGetattr name = .error "Panel does not exist." ∧
    emptyPanelBool = false ∧
    figureInitPanels =
      { leftpanel := .empty, rightpanel := .empty,
        bottompanel := .empty, toppanel := .empty } ∧
    baseAxesInitPanels =
      { leftpanel := .empty, rightpanel := .empty,
        bottompanel := .empty, toppanel := .empty } := by
  refine ⟨?_, rfl, rfl, rfl⟩
  simp [emptyPanelGetattr, h]

/-- Witness for C10 at the attribute name "width". -/
theorem empty_panel_sentinel_witness :
    emptyPanelGetattr "width" = .error "Panel does not exist." ∧
    emptyPanelBool = false ∧
    figureInitPanels =
      { leftpanel := .empty, rightpanel := .empty,
        bottompanel := .empty, toppanel := .empty } ∧
    baseAxesInitPanels =
      { leftpanel := .empty, rightpanel := .empty,
        bottompanel := .empty, toppanel := .empty } :=
  empty_panel_sentinel "width" (by decide)
